import Mathlib

/-!
Verification of the rules-admin dashboard logic of this repository
(src/services/kube-tools/scripts/rules_admin/templates/view_rule.html and the
sidebar script src/unnamed/part_003).

The browser-side JavaScript is shallowly embedded: DOM state that the scripts
read or write (row dataset attributes, checkbox state, CSS classes, the visible
count, the cached allRules array) is carried in explicit structures, and each
script function becomes a pure Lean function on that state.

Modelling conventions:
* JS strings are Lean strings; String.prototype.includes is substring search on
  the character lists; toLowerCase and trim are modelled for the ASCII range.
* localeCompare is modelled as the codepoint-lexicographic three-way comparison
  (a total order, as any locale collation is).
* new Date(s) followed by numeric comparison is modelled by jsDateValue, a
  parser for the ISO-like "YYYY-MM-DD HH:MM:SS" timestamps the backend emits
  (Python str(datetime)); every other string is an invalid date, i.e. NaN.
  Per the ECMAScript SortCompare step, a NaN comparator result counts as 0.
* Array.prototype.sort is a stable sort; it is modelled by List.insertionSort,
  which is stable and agrees with every stable sort for consistent comparators.
* The allRules cache is always in bijection with the DOM rows in document
  order (it is rebuilt from the rows at DOMContentLoaded, at the end of
  sortRules, and inside filterRules when empty, and rows are never removed),
  so each cached entry is stored inline in its Row as the cName..cQuery fields.
-/

namespace RulesAdmin

/-- Lowercasing of one character as done by toLowerCase / Python lower on the
ASCII range. -/
def jsCharLower (c : Char) : Char :=
  if c.isUpper then Char.ofNat (c.toNat + 32) else c

/-- Models String.prototype.toLowerCase (and the Jinja lower filter) on the
ASCII range. -/
def jsToLower (s : String) : String :=
  ⟨s.data.map jsCharLower⟩

/-- Whitespace as stripped by String.prototype.trim (common cases). -/
def jsIsSpace (c : Char) : Bool :=
  c = ' ' || c = '\t' || c = '\n' || c = '\r'

/-- Models String.prototype.trim. -/
def jsTrim (s : String) : String :=
  ⟨((s.data.dropWhile jsIsSpace).reverse.dropWhile jsIsSpace).reverse⟩

/-- Whether the first list occurs at the front of the second. -/
def frontMatches : List Char → List Char → Bool
  | [], _ => true
  | _ :: _, [] => false
  | a :: as, b :: bs => a == b && frontMatches as bs

/-- Whether the first list occurs as a contiguous run inside the second. -/
def containsSub : List Char → List Char → Bool
  | sub, [] => sub.isEmpty
  | sub, c :: t => frontMatches sub (c :: t) || containsSub sub t

/-- Models hay.includes(sub) for JS strings. -/
def jsIncludes (hay sub : String) : Bool :=
  containsSub sub.data hay.data

/-- Codepoint-lexicographic strict order on character lists. -/
def lexLtB : List Char → List Char → Bool
  | _, [] => false
  | [], _ :: _ => true
  | a :: as, b :: bs =>
    if a.toNat < b.toNat then true
    else if b.toNat < a.toNat then false
    else lexLtB as bs

/-- Models a.localeCompare(b): a three-way comparison giving a total order on
strings; locale collation is abstracted to codepoint order. -/
def jsStrCmp (a b : String) : Int :=
  if lexLtB a.data b.data then -1
  else if lexLtB b.data a.data then 1
  else 0

/-- Numeric value of a decimal digit character, if it is one. -/
def digitVal (c : Char) : Option Nat :=
  if c.isDigit then some (c.toNat - 48) else none

/-- Two digit characters as a number below 100. -/
def twoDigits (a b : Char) : Option Nat :=
  match digitVal a, digitVal b with
  | some x, some y => some (10 * x + y)
  | _, _ => none

/-- Models new Date(s).getTime() for the timestamps the backend emits,
which are Python str(datetime) values "YYYY-MM-DD HH:MM:SS[.ffffff]" (or a
bare date); the encoding is strictly monotone in the calendar order and
ignores sub-second precision. Any other string (in particular "None", the
rendering of a missing date) is an invalid date, i.e. NaN, here none. -/
def jsDateValue (s : String) : Option Int :=
  match s.data with
  | y1 :: y2 :: y3 :: y4 :: '-' :: mo1 :: mo2 :: '-' :: d1 :: d2 :: rest =>
    match twoDigits y1 y2, twoDigits y3 y4, twoDigits mo1 mo2, twoDigits d1 d2 with
    | some yh, some yl, some mo, some d =>
      if 1 ≤ mo ∧ mo ≤ 12 ∧ 1 ≤ d ∧ d ≤ 31 then
        let day : Nat := ((yh * 100 + yl) * 13 + mo) * 32 + d
        match rest with
        | [] => some (Int.ofNat (day * 86400))
        | ' ' :: h1 :: h2 :: ':' :: n1 :: n2 :: ':' :: s1 :: s2 :: _ =>
          match twoDigits h1 h2, twoDigits n1 n2, twoDigits s1 s2 with
          | some h, some n, some sec =>
            if h ≤ 23 ∧ n ≤ 59 ∧ sec ≤ 59 then
              some (Int.ofNat (day * 86400 + (h * 60 + n) * 60 + sec))
            else none
          | _, _, _ => none
        | _ => none
      else none
    | _, _, _, _ => none
  | _ => none

/-- Comparator body new Date(b) - new Date(a) used by sortRules for the date
keys (newest first); a NaN result is treated as 0 by the ECMAScript
SortCompare step. -/
def jsDateCmp (a b : String) : Int :=
  match jsDateValue a, jsDateValue b with
  | some x, some y => y - x
  | _, _ => 0

/-- Python str() of a boolean, as rendered into data-active by the Jinja
template. -/
def pyStr (b : Bool) : String :=
  if b then "True" else "False"

/-- JS stringification of a boolean, as produced by assigning a boolean to a
dataset attribute. -/
def jsBoolString (b : Bool) : String :=
  if b then "true" else "false"

/-- One rule record as handed to the dashboard template (rule dict fields read
by view_rule.html): rule.get('is_active', True) is an optional boolean, the
date fields arrive already rendered to strings by Python str(). -/
structure RuleData where
  ruleId : String
  name : String
  description : String
  query : String
  action : String
  isActive : Option Bool
  maxResults : Nat
  countProcessed : Nat
  createdDate : String
  modifiedDate : String
deriving DecidableEq

/-- One tr.rule-row of the dashboard table: the data-* attributes the template
writes, the DOM state the scripts mutate (checkbox, classes, icon, display),
and this row's entry in the allRules cache (cName..cQuery, see the header
comment on the bijection between cache and rows). -/
structure Row where
  dataName : String
  dataAction : String
  dataCreated : String
  dataModified : String
  dataDescription : String
  dataActive : String
  queryText : String
  checked : Bool
  tableSecondary : Bool
  linkMuted : Bool
  pauseIcon : Bool
  display : Bool
  cName : String
  cAction : String
  cDescription : String
  cCreated : String
  cModified : String
  cActive : String
  cQuery : String
deriving DecidableEq

/-- Dashboard page state: the table rows in document order, whether the
allRules cache is populated (allRules.length different from 0), the text of
the rulesCount element, and the alert messages surfaced so far. -/
structure PageState where
  rows : List Row
  hasCache : Bool
  rulesCount : Nat
  alerts : List String
deriving DecidableEq

/-- The filter inputs filterRules reads from the sidebar: the raw search box
value, the All Types checkbox, and the values of the checked action-filter
and status-filter checkboxes (in DOM order). -/
structure FilterParams where
  searchInput : String
  filterAll : Bool
  actionFilters : List String
  statusFilters : List String
deriving DecidableEq

/-- Server-side rendering of one rule into its table row (view_rule.html
lines 418-510): name and description are lowered into data attributes by the
Jinja lower filter, data-active is the Python str of rule.get('is_active',
True), and the same default drives the checkbox, the muted styling and the
pause icon. The cache fields start empty: allRules is not populated yet. -/
def renderRow (rd : RuleData) : Row :=
  let active := rd.isActive.getD true
  { dataName := jsToLower rd.name
    dataAction := rd.action
    dataCreated := rd.createdDate
    dataModified := rd.modifiedDate
    dataDescription := jsToLower rd.description
    dataActive := pyStr active
    queryText := rd.query
    checked := active
    tableSecondary := !active
    linkMuted := !active
    pauseIcon := !active
    display := true
    cName := "", cAction := "", cDescription := "", cCreated := ""
    cModified := "", cActive := "", cQuery := "" }

/-- Snapshot of one row into its allRules entry (view_rule.html lines
579-591): each dataset field with a falsy-default (identity on present
attributes, except data-active which defaults to the string True), and the
query cell text lowered for searching. -/
def snapshotRow (r : Row) : Row :=
  { r with
    cName := r.dataName
    cAction := r.dataAction
    cDescription := r.dataDescription
    cCreated := r.dataCreated
    cModified := r.dataModified
    cActive := if r.dataActive = "" then "True" else r.dataActive
    cQuery := jsToLower r.queryText }

/-- The status classification rule.active === 'True' used by filterRules
(view_rule.html line 670). -/
def ruleIsActive (active : String) : Bool :=
  active == "True"

/-- The per-rule visibility predicate of filterRules (view_rule.html lines
658-675), evaluated on the rule's allRules cache entry. -/
def ruleMatches (p : FilterParams) (r : Row) : Bool :=
  let searchTerm := jsTrim (jsToLower p.searchInput)
  let matchesSearch :=
    searchTerm == "" ||
    (!(r.cName == "") && jsIncludes r.cName searchTerm) ||
    (!(r.cDescription == "") && jsIncludes r.cDescription searchTerm) ||
    (!(r.cQuery == "") && jsIncludes r.cQuery searchTerm)
  let matchesAction := p.filterAll || p.actionFilters.contains r.cAction
  let active := ruleIsActive r.cActive
  let matchesStatus :=
    (p.statusFilters.contains "active" && active) ||
    (p.statusFilters.contains "inactive" && !active)
  matchesSearch && matchesAction && matchesStatus

/-- One row after the visibility assignment of the filterRules loop. -/
def setDisplay (p : FilterParams) (r : Row) : Row :=
  { r with display := ruleMatches p r }

/-- The allRules.forEach loop of filterRules: sets each row's display style
and counts the visible rows. -/
def filterLoop (p : FilterParams) : List Row → List Row × Nat
  | [] => ([], 0)
  | r :: rs =>
    let rest := filterLoop p rs
    if ruleMatches p r then ({ r with display := true } :: rest.1, rest.2 + 1)
    else ({ r with display := false } :: rest.1, rest.2)

/-- The reinitialization guard at the top of filterRules (view_rule.html
lines 641-656): if allRules is empty it is rebuilt from the current rows. -/
def reinitCache (pg : PageState) : PageState :=
  if pg.hasCache then pg
  else { pg with rows := pg.rows.map snapshotRow, hasCache := !pg.rows.isEmpty }

/-- filterRules (view_rule.html lines 623-690): after the optional cache
rebuild, runs the visibility loop and writes the visible count into the
rulesCount element, which exists only when the page has rows. -/
def filterRules (p : FilterParams) (pg : PageState) : PageState :=
  let pg1 := reinitCache pg
  let res := filterLoop p pg1.rows
  { pg1 with
    rows := res.1
    rulesCount := if res.1.isEmpty then pg1.rulesCount else res.2 }

/-- The comparator of sortRules (view_rule.html lines 696-718): localeCompare
on the name and action dataset attributes, date subtraction newest-first on
the created and modified attributes, with modified as the default branch. -/
def rowCmp (sortBy : String) (a b : Row) : Int :=
  if sortBy = "name" then jsStrCmp a.dataName b.dataName
  else if sortBy = "action" then jsStrCmp a.dataAction b.dataAction
  else if sortBy = "created" then jsDateCmp a.dataCreated b.dataCreated
  else jsDateCmp a.dataModified b.dataModified

/-- The ordering a stable Array.prototype.sort realizes from an Int-valued
comparator: a stays before b whenever the comparator does not demand the
swap (result at most 0, with NaN already mapped to 0 by the comparator). -/
def jsLe (cmp : Row → Row → Int) (a b : Row) : Prop :=
  cmp a b ≤ 0

instance (cmp : Row → Row → Int) : DecidableRel (jsLe cmp) :=
  fun a b => inferInstanceAs (Decidable (cmp a b ≤ 0))

/-- sortRules (view_rule.html lines 692-738): stable-sorts the rows by the
chosen key, re-appends them, and rebuilds the allRules cache from the new
document order. Display styles and the count element are not touched. -/
def sortRules (sortBy : String) (pg : PageState) : PageState :=
  let rows := (List.insertionSort (jsLe (rowCmp sortBy)) pg.rows).map snapshotRow
  { pg with rows := rows, hasCache := !rows.isEmpty }

/-- Outcome of the fetch in toggleRuleStatus: an ok JSON response carrying
is_active, a non-ok response, or a thrown network error. -/
inductive ToggleResponse where
  | ok (isActive : Bool)
  | httpError
  | networkError (message : String)
deriving DecidableEq

/-- Whether the outcome takes an error branch of toggleRuleStatus. -/
def isFailure : ToggleResponse → Bool
  | .ok _ => false
  | _ => true

/-- The browser flipping the checkbox when the user clicks it, before the
onchange handler runs. -/
def clickRow (r : Row) : Row :=
  { r with checked := !r.checked }

/-- Effect of the dashboard toggleRuleStatus handler (view_rule.html lines
752-803) on its row, starting from the state at handler entry (checkbox
already flipped by the click): on ok it rewrites the row styling, the pause
icon and data-active from the returned is_active and leaves the checkbox
alone; on error it flips the checkbox back. -/
def toggleRuleStatusRow (r : Row) (resp : ToggleResponse) : Row :=
  match resp with
  | .ok b =>
    if b then
      { r with tableSecondary := false, linkMuted := false, pauseIcon := false
               dataActive := jsBoolString true }
    else
      { r with tableSecondary := true, linkMuted := true, pauseIcon := true
               dataActive := jsBoolString false }
  | .httpError => { r with checked := !r.checked }
  | .networkError _ => { r with checked := !r.checked }

/-- The alert toggleRuleStatus raises on each outcome. -/
def toggleAlert : ToggleResponse → Option String
  | .ok _ => none
  | .httpError => some "Failed to toggle rule status"
  | .networkError m => some ("Error toggling rule status: " ++ m)

/-- Replacement of the element at one position of a list. -/
def modifyIdx : List α → Nat → (α → α) → List α
  | [], _, _ => []
  | a :: l, 0, f => f a :: l
  | a :: l, n + 1, f => a :: modifyIdx l n f

/-- A user toggle of row i on the dashboard: the click flips the checkbox,
then the handler runs against the given outcome. Only that row and the alert
list change; the allRules cache and the count element are never touched. -/
def toggleRuleStatus (i : Nat) (resp : ToggleResponse) (pg : PageState) : PageState :=
  { pg with
    rows := modifyIdx pg.rows i (fun r => toggleRuleStatusRow (clickRow r) resp)
    alerts := pg.alerts ++ (toggleAlert resp).toList }

/-- Page view: the server renders the rows (initial count rules|length),
DOMContentLoaded snapshots them into allRules and runs filterRules once with
the current sidebar inputs. -/
def loadPage (rules : List RuleData) (p : FilterParams) : PageState :=
  let rows := (rules.map renderRow).map snapshotRow
  filterRules p
    { rows := rows, hasCache := !rows.isEmpty
      rulesCount := rules.length, alerts := [] }

/-- DOM state of the single-rule view page that its toggleRuleStatus handler
touches (view_rule.html lines 205-244): the status checkbox, the status-text
span and the class of the first badge. -/
structure ViewPageState where
  checked : Bool
  statusText : String
  badgeClass : String
deriving DecidableEq

/-- The browser flipping the view-page checkbox on click. -/
def viewClick (st : ViewPageState) : ViewPageState :=
  { st with checked := !st.checked }

/-- The view-page toggleRuleStatus handler, from the state at handler entry:
on ok it rewrites the status text and badge from the returned is_active and
leaves the checkbox alone; on error it flips the checkbox back and alerts. -/
def viewToggleRuleStatus (st : ViewPageState) (resp : ToggleResponse) :
    ViewPageState × Option String :=
  match resp with
  | .ok b =>
    if b then
      ({ st with statusText := "Rule is active and processing emails"
                 badgeClass := "badge bg-success ms-2" }, none)
    else
      ({ st with statusText := "Rule is inactive and not processing emails"
                 badgeClass := "badge bg-secondary ms-2" }, none)
  | .httpError => ({ st with checked := !st.checked }, some "Failed to toggle rule status")
  | .networkError m =>
    ({ st with checked := !st.checked }, some ("Error toggling rule status: " ++ m))

/-- One rule object of the sidebar quick-search script (src/unnamed/part_003),
with the fields its filterRules reads. -/
structure SidebarRule where
  ruleId : String
  name : String
  description : String
  query : String
  action : String
deriving DecidableEq

/-- getActionName of the sidebar script (src/unnamed/part_003 lines 177-187). -/
def getActionName (action : String) : String :=
  if action = "sms" then "SMS"
  else if action = "bank-sync" then "Bank"
  else if action = "archive" then "Archive"
  else if action = "email-forward" then "Email"
  else if action = "webhook" then "Webhook"
  else if action = "mark-read" then "Read"
  else action

/-- filterRules of the sidebar script (src/unnamed/part_003 lines 132-148):
for a non-empty lowered trimmed term, keeps the rules whose lowered name,
description, query, action, or action display name contains the term. -/
def sidebarFilterRules (searchTerm : String) (rulesData : List SidebarRule) :
    List SidebarRule :=
  let term := jsTrim (jsToLower searchTerm)
  if term = "" then rulesData
  else
    rulesData.filter fun rule =>
      jsIncludes (jsToLower rule.name) term ||
      jsIncludes (jsToLower rule.description) term ||
      jsIncludes (jsToLower rule.query) term ||
      jsIncludes (jsToLower rule.action) term ||
      jsIncludes (jsToLower (getActionName rule.action)) term

/-- Modelled from the spec: the number of rules whose current resolved
active or inactive state and fields pass all currently active filter
predicates (spec sections 3 and 4.1), evaluated on the live row data rather
than on any cache. Used only to compare the specified invariant with the
implemented behaviour. -/
def specRulePasses (p : FilterParams) (r : Row) : Bool :=
  let term := jsTrim (jsToLower p.searchInput)
  let matchesSearch :=
    term == "" ||
    jsIncludes r.dataName term ||
    jsIncludes r.dataDescription term ||
    jsIncludes (jsToLower r.queryText) term
  let matchesAction := p.filterAll || p.actionFilters.contains r.dataAction
  let active := ruleIsActive r.dataActive
  let matchesStatus :=
    (p.statusFilters.contains "active" && active) ||
    (p.statusFilters.contains "inactive" && !active)
  matchesSearch && matchesAction && matchesStatus

/-- Modelled from the spec: the count companion of specRulePasses. -/
def specPassingCount (p : FilterParams) (rows : List Row) : Nat :=
  rows.countP (specRulePasses p)

/-- Comparison by parsed modified timestamp, newest first; on rows whose
dates all parse this coincides with the sort relation induced by the
modified comparator, and unlike it, it is total and transitive everywhere. -/
def modifiedKeyLe (a b : Row) : Prop :=
  (jsDateValue b.dataModified).getD 0 ≤ (jsDateValue a.dataModified).getD 0

instance : DecidableRel modifiedKeyLe :=
  fun a b => inferInstanceAs
    (Decidable ((jsDateValue b.dataModified).getD 0 ≤ (jsDateValue a.dataModified).getD 0))

/-- A concrete active sms rule used in the concrete scenarios. -/
def rdA : RuleData :=
  { ruleId := "r1", name := "Alpha", description := "Desc", query := "q"
    action := "sms", isActive := some true, maxResults := 10
    countProcessed := 0, createdDate := "2024-01-01 00:00:00"
    modifiedDate := "2024-01-02 00:00:00" }

/-- The same rule, initially inactive. -/
def rdB : RuleData := { rdA with isActive := some false }

/-- Filter inputs selecting only active rules, every action via All Types. -/
def pC2 : FilterParams :=
  { searchInput := "", filterAll := true, actionFilters := ["sms"]
    statusFilters := ["active"] }

/-- Filter inputs selecting everything. -/
def pAll : FilterParams :=
  { searchInput := "", filterAll := true, actionFilters := []
    statusFilters := ["active", "inactive"] }

/-- Filter inputs with the All Types box unchecked and no action selected. -/
def pNoAct : FilterParams :=
  { searchInput := "", filterAll := false, actionFilters := []
    statusFilters := ["active", "inactive"] }

/-- Filter inputs with every individual action kind selected instead. -/
def pFullAct : FilterParams :=
  { pNoAct with
    actionFilters := ["sms", "bank-sync", "archive", "email-forward", "webhook", "mark-read"] }

/-- Search inputs matching the name alpha, statuses restricted to active. -/
def pSearch : FilterParams :=
  { searchInput := "Alpha", filterAll := true, actionFilters := []
    statusFilters := ["active"] }

/-- The row of rdA as rendered and snapshotted under pSearch. -/
def rW4 : Row := setDisplay pSearch (snapshotRow (renderRow rdA))

/-- A sidebar rule whose action is sms but whose name, description and query
do not mention sms. -/
def sbR : SidebarRule :=
  { ruleId := "r9", name := "Payment alert", description := "bank notifications"
    query := "from:chase", action := "sms" }

/-- A rendered row whose modified date is the string None. -/
def rowN : Row := snapshotRow (renderRow { rdA with name := "nulldate", modifiedDate := "None" })

/-- A rendered row with a valid modified date. -/
def rowV : Row :=
  snapshotRow (renderRow { rdA with name := "valid", modifiedDate := "2024-01-02 03:04:05" })

/-- A second rendered row with a later valid modified date. -/
def rowV2 : Row :=
  snapshotRow (renderRow { rdA with name := "later", modifiedDate := "2024-03-04 05:06:07" })

/-- A two-row page whose first row has the unparseable modified date. -/
def pgC9 : PageState := { rows := [rowN, rowV], hasCache := true, rulesCount := 2, alerts := [] }

/-- A two-row page whose rows both have valid modified dates. -/
def pgV9 : PageState := { rows := [rowV, rowV2], hasCache := true, rulesCount := 2, alerts := [] }

/-- A concrete loaded page used by the witnesses. -/
def pgW : PageState := loadPage [rdA] pAll

/-- A concrete view-page state used by the witnesses. -/
def stW : ViewPageState :=
  { checked := true, statusText := "Rule is active and processing emails"
    badgeClass := "badge bg-success ms-2" }

/-! Supporting lemmas. -/

theorem charToNat_inj {a b : Char} (h : a.toNat = b.toNat) : a = b := by
  apply Char.eq_of_val_eq
  apply UInt32.eq_of_toBitVec_eq
  apply BitVec.eq_of_toNat_eq
  simpa [Char.toNat, UInt32.toNat] using h

theorem lexLtB_irrefl (x : List Char) : lexLtB x x = false := by
  induction x with
  | nil => rfl
  | cons a as ih => simp [lexLtB, ih]

theorem lexLtB_trans : ∀ {x y z : List Char},
    lexLtB x y = true → lexLtB y z = true → lexLtB x z = true := by
  intro x
  induction x with
  | nil =>
    intro y z h1 h2
    cases y with
    | nil => simp [lexLtB] at h1
    | cons b bs =>
      cases z with
      | nil => simp [lexLtB] at h2
      | cons c cs => simp [lexLtB]
  | cons a as ih =>
    intro y z h1 h2
    cases y with
    | nil => simp [lexLtB] at h1
    | cons b bs =>
      cases z with
      | nil => simp [lexLtB] at h2
      | cons c cs =>
        simp only [lexLtB] at h1 h2 ⊢
        split_ifs at h1 h2 ⊢ <;> first | rfl | omega | exact ih h1 h2

theorem lexLtB_asymm {x y : List Char} (h : lexLtB x y = true) : lexLtB y x = false := by
  by_contra hc
  rw [Bool.not_eq_false] at hc
  have := lexLtB_trans h hc
  rw [lexLtB_irrefl] at this
  exact Bool.false_ne_true this

theorem lexLtB_eq_of_not : ∀ {x y : List Char},
    lexLtB x y = false → lexLtB y x = false → x = y := by
  intro x
  induction x with
  | nil =>
    intro y h1 _
    cases y with
    | nil => rfl
    | cons b bs => simp [lexLtB] at h1
  | cons a as ih =>
    intro y h1 h2
    cases y with
    | nil => simp [lexLtB] at h2
    | cons b bs =>
      simp only [lexLtB] at h1 h2
      split_ifs at h1 h2
      have hab : a = b := charToNat_inj (by omega)
      rw [hab, ih h1 h2]

theorem lexLtB_not_trans {a b c : List Char} (h1 : lexLtB b a = false)
    (h2 : lexLtB c b = false) : lexLtB c a = false := by
  by_contra hc
  rw [Bool.not_eq_false] at hc
  cases hab : lexLtB a b with
  | false =>
    have hee := lexLtB_eq_of_not hab h1
    rw [hee] at hc
    exact Bool.false_ne_true (h2 ▸ hc)
  | true =>
    cases hbc : lexLtB b c with
    | false =>
      have hee := lexLtB_eq_of_not hbc h2
      rw [← hee] at hc
      exact Bool.false_ne_true (h1 ▸ hc)
    | true =>
      have h3 := lexLtB_trans hab hbc
      have h4 := lexLtB_trans h3 hc
      rw [lexLtB_irrefl] at h4
      exact Bool.false_ne_true h4

theorem jsStrCmp_le_iff (a b : String) : jsStrCmp a b ≤ 0 ↔ lexLtB b.data a.data = false := by
  unfold jsStrCmp
  split_ifs with h1 h2
  · simp [lexLtB_asymm h1]
  · simp [h2]
  · simp [h2]

theorem jsStrCmp_self (a : String) : jsStrCmp a a = 0 := by
  simp [jsStrCmp, lexLtB_irrefl]

theorem jsStrCmp_le_total (a b : String) : jsStrCmp a b ≤ 0 ∨ jsStrCmp b a ≤ 0 := by
  rw [jsStrCmp_le_iff, jsStrCmp_le_iff]
  cases h : lexLtB b.data a.data with
  | false => exact Or.inl rfl
  | true => exact Or.inr (lexLtB_asymm h)

theorem jsStrCmp_le_trans {a b c : String} (h1 : jsStrCmp a b ≤ 0)
    (h2 : jsStrCmp b c ≤ 0) : jsStrCmp a c ≤ 0 := by
  rw [jsStrCmp_le_iff] at h1 h2 ⊢
  exact lexLtB_not_trans h1 h2

theorem filterLoop_eq (p : FilterParams) (l : List Row) :
    filterLoop p l = (l.map (setDisplay p), l.countP (ruleMatches p)) := by
  induction l with
  | nil => rfl
  | cons r t ih =>
    simp only [filterLoop, ih, List.map_cons, List.countP_cons, setDisplay]
    cases h : ruleMatches p r with
    | true => simp [h]
    | false => simp [h]

theorem filterRules_rows (p : FilterParams) (pg : PageState) :
    (filterRules p pg).rows = (reinitCache pg).rows.map (setDisplay p) := by
  simp [filterRules, filterLoop_eq]

theorem reinitCache_rows_ne_nil {pg : PageState} (h : pg.rows ≠ []) :
    (reinitCache pg).rows ≠ [] := by
  unfold reinitCache
  split
  · exact h
  · simpa using h

theorem filterRules_count (p : FilterParams) (pg : PageState) (h : pg.rows ≠ []) :
    (filterRules p pg).rulesCount = (reinitCache pg).rows.countP (ruleMatches p) := by
  have h2 : ((reinitCache pg).rows.map (setDisplay p)).isEmpty = false := by
    rw [Bool.eq_false_iff]
    intro hh
    exact reinitCache_rows_ne_nil h (by simpa using List.isEmpty_iff.mp hh)
  simp [filterRules, filterLoop_eq, h2]

theorem modifyIdx_congr_id {f : α → α} (h : ∀ a, f a = a) :
    ∀ (l : List α) (i : Nat), modifyIdx l i f = l := by
  intro l
  induction l with
  | nil => intro i; rfl
  | cons a t ih =>
    intro i
    cases i with
    | zero => simp [modifyIdx, h]
    | succ n => simp [modifyIdx, ih]

theorem orderedInsert_congr {r s : α → α → Prop} [DecidableRel r] [DecidableRel s]
    (a : α) (l : List α) (h : ∀ x ∈ l, (r a x ↔ s a x)) :
    List.orderedInsert r a l = List.orderedInsert s a l := by
  induction l with
  | nil => rfl
  | cons b t ih =>
    have hb := h b (List.mem_cons_self b t)
    by_cases hr : r a b
    · rw [List.orderedInsert, if_pos hr, List.orderedInsert, if_pos (hb.mp hr)]
    · rw [List.orderedInsert, if_neg hr, List.orderedInsert,
        if_neg (fun hs => hr (hb.mpr hs)),
        ih (fun x hx => h x (List.mem_cons_of_mem b hx))]

theorem insertionSort_congr {r s : α → α → Prop} [DecidableRel r] [DecidableRel s]
    (l : List α) (h : ∀ x ∈ l, ∀ y ∈ l, (r x y ↔ s x y)) :
    List.insertionSort r l = List.insertionSort s l := by
  induction l with
  | nil => rfl
  | cons a t ih =>
    rw [List.insertionSort, List.insertionSort,
      ih (fun x hx y hy => h x (List.mem_cons_of_mem a hx) y (List.mem_cons_of_mem a hy))]
    apply orderedInsert_congr
    intro x hx
    have hxt : x ∈ t := (List.mem_insertionSort s).mp hx
    exact h a (List.mem_cons_self a t) x (List.mem_cons_of_mem a hxt)

theorem filter_insertionSort_ties {r : α → α → Prop} [DecidableRel r]
    (p : α → Bool) (l : List α)
    (h : ∀ x ∈ l, ∀ y ∈ l, p x = true → p y = true → r x y) :
    (List.insertionSort r l).filter p = l.filter p := by
  have hpair : (l.filter p).Pairwise r := by
    apply List.pairwise_of_forall_mem_list
    intro x hx y hy
    have hx2 := List.mem_filter.mp hx
    have hy2 := List.mem_filter.mp hy
    exact h x hx2.1 y hy2.1 hx2.2 hy2.2
  have hsub : (l.filter p).Sublist (List.insertionSort r l) :=
    List.sublist_insertionSort hpair (List.filter_sublist l)
  have hidem : (l.filter p).filter p = l.filter p := by
    rw [List.filter_filter]
    apply List.filter_congr
    intro x hx
    exact Bool.and_self (p x)
  have hsub2 : (l.filter p).Sublist ((List.insertionSort r l).filter p) := by
    have := List.Sublist.filter p hsub
    rwa [hidem] at this
  have hlen : ((List.insertionSort r l).filter p).length = (l.filter p).length :=
    ((List.perm_insertionSort r l).filter p).length_eq
  exact (hsub2.eq_of_length hlen.symm).symm

theorem snapshotRow_snapshotRow (r : Row) : snapshotRow (snapshotRow r) = snapshotRow r := rfl

theorem snap_map_idem (l : List Row) :
    (l.map snapshotRow).map snapshotRow = l.map snapshotRow := by
  rw [List.map_map]
  have h : snapshotRow ∘ snapshotRow = snapshotRow := funext snapshotRow_snapshotRow
  rw [h]

theorem loadPage_rows (rules : List RuleData) (p : FilterParams) :
    (loadPage rules p).rows = ((rules.map renderRow).map snapshotRow).map (setDisplay p) := by
  unfold loadPage
  rw [filterRules_rows]
  congr 1
  unfold reinitCache
  split
  · rfl
  · simpa using snap_map_idem (rules.map renderRow)

theorem rowCmp_name (a b : Row) : rowCmp "name" a b = jsStrCmp a.dataName b.dataName := by
  simp [rowCmp]

theorem rowCmp_modified (a b : Row) :
    rowCmp "modified" a b = jsDateCmp a.dataModified b.dataModified := by
  simp [rowCmp]

/-! Claim theorems. -/

/-- C1: when toggleRuleStatus fails (network error or non-ok response) on a
rule present in the projection, the row's displayed active state is reverted
to its exact pre-toggle value and nothing else of the row changes (the whole
row list, the count and the cache flag are untouched), a user-visible alert
is raised, and the failure stays confined to that control; the same holds
for the view-page handler. -/
theorem c1_toggle_failure_rollback (pg : PageState) (i : Nat) (resp : ToggleResponse)
    (st : ViewPageState) (_hi : i < pg.rows.length) (hf : isFailure resp = true) :
    (toggleRuleStatus i resp pg).rows = pg.rows ∧
    (toggleRuleStatus i resp pg).rulesCount = pg.rulesCount ∧
    (toggleRuleStatus i resp pg).hasCache = pg.hasCache ∧
    (∃ m, toggleAlert resp = some m ∧ (toggleRuleStatus i resp pg).alerts = pg.alerts ++ [m]) ∧
    viewToggleRuleStatus (viewClick st) resp = (st, toggleAlert resp) := by
  have hrow : ∀ r : Row, toggleRuleStatusRow (clickRow r) resp = r := by
    intro r
    cases resp with
    | ok b => simp [isFailure] at hf
    | httpError => simp [toggleRuleStatusRow, clickRow]
    | networkError m => simp [toggleRuleStatusRow, clickRow]
  refine ⟨?_, rfl, rfl, ?_, ?_⟩
  · simp [toggleRuleStatus, modifyIdx_congr_id hrow]
  · cases resp with
    | ok b => simp [isFailure] at hf
    | httpError => exact ⟨_, rfl, rfl⟩
    | networkError m => exact ⟨_, rfl, rfl⟩
  · cases resp with
    | ok b => simp [isFailure] at hf
    | httpError => simp [viewToggleRuleStatus, viewClick, toggleAlert]
    | networkError m => simp [viewToggleRuleStatus, viewClick, toggleAlert]

theorem c1_toggle_failure_rollback_witness :
    (toggleRuleStatus 0 ToggleResponse.httpError pgW).rows = pgW.rows :=
  (c1_toggle_failure_rollback pgW 0 ToggleResponse.httpError stW (by decide) rfl).1

/-- C6: with both status checkboxes unchecked (no status filter values), no
rule is visible and the displayed count is 0, for any page with rows. -/
theorem c6_empty_status_hides_all (pg : PageState) (p : FilterParams)
    (h1 : pg.rows ≠ []) (h2 : p.statusFilters = []) :
    (filterRules p pg).rulesCount = 0 ∧
    ∀ r ∈ (filterRules p pg).rows, r.display = false := by
  have hm : ∀ r : Row, ruleMatches p r = false := by
    intro r
    simp [ruleMatches, h2]
  constructor
  · rw [filterRules_count p pg h1]
    exact List.countP_eq_zero.mpr (fun r _ => by simp [hm])
  · intro r hr
    rw [filterRules_rows] at hr
    rcases List.mem_map.mp hr with ⟨r0, _, rfl⟩
    simp [setDisplay, hm]

theorem c6_empty_status_witness :
    (filterRules { searchInput := "", filterAll := true, actionFilters := []
                   statusFilters := [] } pgW).rulesCount = 0 :=
  (c6_empty_status_hides_all pgW _ (by decide) rfl).1

/-- C7: with an empty search box, the All Types box checked and both status
values selected, the filter shows every loaded rule: the displayed count
equals the number of loaded rules and every row is displayed. -/
theorem c7_identity_filter (rules : List RuleData) (p : FilterParams)
    (h1 : p.searchInput = "") (h2 : p.filterAll = true)
    (h3 : p.statusFilters.contains "active" = true)
    (h4 : p.statusFilters.contains "inactive" = true) :
    (loadPage rules p).rulesCount = rules.length ∧
    ∀ r ∈ (loadPage rules p).rows, r.display = true := by
  have he : jsTrim (jsToLower "") = "" := rfl
  have h3m : "active" ∈ p.statusFilters := by simpa using h3
  have h4m : "inactive" ∈ p.statusFilters := by simpa using h4
  have hm : ∀ r : Row, ruleMatches p r = true := by
    intro r
    cases hact : ruleIsActive r.cActive <;>
      simp [ruleMatches, h1, h2, h3m, h4m, hact, he]
  by_cases hnil : rules = []
  · subst hnil
    refine ⟨rfl, ?_⟩
    intro r hr
    rw [show (loadPage ([] : List RuleData) p).rows = [] from rfl] at hr
    exact absurd hr (List.not_mem_nil r)
  · have hrows : ((rules.map renderRow).map snapshotRow) ≠ [] := by
      simp [hnil]
    constructor
    · rw [show loadPage rules p = filterRules p
          { rows := (rules.map renderRow).map snapshotRow
            hasCache := !((rules.map renderRow).map snapshotRow).isEmpty
            rulesCount := rules.length, alerts := [] } from rfl]
      rw [filterRules_count _ _ hrows]
      have hcache : (!((rules.map renderRow).map snapshotRow).isEmpty) = true := by
        simp [List.isEmpty_iff, hnil]
      rw [reinitCache, if_pos hcache]
      rw [List.countP_eq_length.mpr (fun r _ => hm r)]
      simp
    · intro r hr
      rw [show loadPage rules p = filterRules p
          { rows := (rules.map renderRow).map snapshotRow
            hasCache := !((rules.map renderRow).map snapshotRow).isEmpty
            rulesCount := rules.length, alerts := [] } from rfl] at hr
      rw [filterRules_rows] at hr
      rcases List.mem_map.mp hr with ⟨r0, _, rfl⟩
      simp [setDisplay, hm]

theorem c7_identity_filter_witness :
    (loadPage [rdA, rdB] pAll).rulesCount = ([rdA, rdB] : List RuleData).length :=
  (c7_identity_filter [rdA, rdB] pAll rfl rfl (by decide) (by decide)).1

/-- C5 counterexample: on a one-rule page, deselecting every action kind with
the All Types box unchecked hides the rule (count 0), whereas selecting the
full action set shows it (count 1); an empty selection is therefore a
restriction to nothing, not the absence of a restriction. -/
theorem c5_empty_actions_counterexample :
    (loadPage [rdA] pNoAct).rulesCount = 0 ∧ (loadPage [rdA] pFullAct).rulesCount = 1 := by
  decide

/-- C5 amended: with the All Types box unchecked and no action kind selected,
filterRules hides every rule and reports count 0; no restriction requires
the All Types flag (or every action kind) to be selected. -/
theorem c5_empty_actions_amended (pg : PageState) (p : FilterParams)
    (h1 : pg.rows ≠ []) (h2 : p.filterAll = false) (h3 : p.actionFilters = []) :
    (filterRules p pg).rulesCount = 0 ∧
    ∀ r ∈ (filterRules p pg).rows, r.display = false := by
  have hm : ∀ r : Row, ruleMatches p r = false := by
    intro r
    simp [ruleMatches, h2, h3]
  constructor
  · rw [filterRules_count p pg h1]
    exact List.countP_eq_zero.mpr (fun r _ => by simp [hm])
  · intro r hr
    rw [filterRules_rows] at hr
    rcases List.mem_map.mp hr with ⟨r0, _, rfl⟩
    simp [setDisplay, hm]

theorem c5_empty_actions_witness :
    (filterRules pNoAct pgW).rulesCount = 0 :=
  (c5_empty_actions_amended pgW pNoAct (by decide) rfl rfl).1

/-- C2 counterexample: with only the active status selected, a one-rule page
shows count 1; after a successful toggle records the rule as inactive, the
displayed count is still 1 while 0 rules pass the predicates on the current
row state, and even re-running filterRules keeps the count at 1 because it
evaluates the stale allRules snapshot. -/
theorem c2_count_invariant_counterexample :
    ((toggleRuleStatus 0 (ToggleResponse.ok false) (loadPage [rdA] pC2)).rulesCount = 1 ∧
      specPassingCount pC2
        (toggleRuleStatus 0 (ToggleResponse.ok false) (loadPage [rdA] pC2)).rows = 0) ∧
    ((filterRules pC2
        (toggleRuleStatus 0 (ToggleResponse.ok false) (loadPage [rdA] pC2))).rulesCount = 1 ∧
      specPassingCount pC2
        (filterRules pC2
          (toggleRuleStatus 0 (ToggleResponse.ok false) (loadPage [rdA] pC2))).rows = 0) := by
  decide

/-- C2 amended: immediately after each filterRules call the displayed count
equals the number of rows whose allRules snapshot passes the active
predicates, and equals the number of rows displayed; the invariant is
relative to the snapshot taken at load or sort time, not to the current row
state a successful toggle may have changed. -/
theorem c2_count_invariant_amended (p : FilterParams) (pg : PageState) (h : pg.rows ≠ []) :
    (filterRules p pg).rulesCount = (reinitCache pg).rows.countP (ruleMatches p) ∧
    (filterRules p pg).rows.countP (fun r => r.display) = (filterRules p pg).rulesCount := by
  refine ⟨filterRules_count p pg h, ?_⟩
  rw [filterRules_rows, filterRules_count p pg h, List.countP_map]
  rfl

theorem c2_count_invariant_witness :
    (filterRules pC2 pgW).rulesCount = (reinitCache pgW).rows.countP (ruleMatches pC2) :=
  (c2_count_invariant_amended pC2 pgW (by decide)).1

/-- C3 counterexample: an initially inactive rule is toggled (optimistic
checkbox value true) and the server answers with is_active false; the stored
flag becomes the server value "false" but the status control remains checked,
so the displayed control does not equal the authoritative value when it
differs from the optimistic guess. -/
theorem c3_toggle_success_counterexample :
    ((toggleRuleStatus 0 (ToggleResponse.ok false) (loadPage [rdB] pAll)).rows.head?.map
        (fun r => r.checked)) = some true ∧
    ((toggleRuleStatus 0 (ToggleResponse.ok false) (loadPage [rdB] pAll)).rows.head?.map
        (fun r => r.dataActive)) = some "false" := by
  decide

/-- C3 amended: on success the row styling (muted class, link color, pause
icon), the stored data-active flag, and on the view page the status text and
badge all reflect the returned is_active value, while the checkbox keeps its
optimistic flipped value and is never set from the response; the control
matches server truth only when the returned value equals the optimistic
guess. -/
theorem c3_toggle_success_amended (r : Row) (st : ViewPageState) (b : Bool) :
    (toggleRuleStatusRow (clickRow r) (ToggleResponse.ok b)).tableSecondary = !b ∧
    (toggleRuleStatusRow (clickRow r) (ToggleResponse.ok b)).linkMuted = !b ∧
    (toggleRuleStatusRow (clickRow r) (ToggleResponse.ok b)).pauseIcon = !b ∧
    (toggleRuleStatusRow (clickRow r) (ToggleResponse.ok b)).dataActive = jsBoolString b ∧
    (toggleRuleStatusRow (clickRow r) (ToggleResponse.ok b)).checked = !r.checked ∧
    (viewToggleRuleStatus (viewClick st) (ToggleResponse.ok b)).1.statusText =
      (if b then "Rule is active and processing emails"
       else "Rule is inactive and not processing emails") ∧
    (viewToggleRuleStatus (viewClick st) (ToggleResponse.ok b)).1.badgeClass =
      (if b then "badge bg-success ms-2" else "badge bg-secondary ms-2") ∧
    (viewToggleRuleStatus (viewClick st) (ToggleResponse.ok b)).1.checked = !st.checked := by
  cases b <;> simp [toggleRuleStatusRow, clickRow, viewToggleRuleStatus, viewClick, jsBoolString]

/-- C4 counterexample: the sidebar quick-search keeps a rule for the term sms
although sms occurs in none of its lowered name, description and query; the
rule matches through its action field, so the search is not restricted to
those three fields. -/
theorem c4_search_fields_counterexample :
    (sidebarFilterRules "sms" [sbR]).length = 1 ∧
    jsIncludes (jsToLower sbR.name) (jsTrim (jsToLower "sms")) = false ∧
    jsIncludes (jsToLower sbR.description) (jsTrim (jsToLower "sms")) = false ∧
    jsIncludes (jsToLower sbR.query) (jsTrim (jsToLower "sms")) = false ∧
    jsTrim (jsToLower "sms") ≠ "" := by
  decide

/-- C4 amended: the dashboard list filter shows a rule for a non-empty term
only if the lowered trimmed term occurs in the rule's lowered name,
description or query; the sidebar quick-search additionally lets the rule's
action kind and its display name match the term. -/
theorem c4_search_fields_amended :
    (∀ (rules : List RuleData) (p : FilterParams) (r : Row),
      r ∈ (loadPage rules p).rows → r.display = true →
      jsTrim (jsToLower p.searchInput) ≠ "" →
      ((jsIncludes r.cName (jsTrim (jsToLower p.searchInput)) ||
        jsIncludes r.cDescription (jsTrim (jsToLower p.searchInput)) ||
        jsIncludes r.cQuery (jsTrim (jsToLower p.searchInput))) = true ∧
       ∃ rd ∈ rules, r.cName = jsToLower rd.name ∧
         r.cDescription = jsToLower rd.description ∧ r.cQuery = jsToLower rd.query)) ∧
    (∀ (term : String) (rules : List SidebarRule) (r : SidebarRule),
      r ∈ sidebarFilterRules term rules → jsTrim (jsToLower term) ≠ "" →
      (jsIncludes (jsToLower r.name) (jsTrim (jsToLower term)) ||
       jsIncludes (jsToLower r.description) (jsTrim (jsToLower term)) ||
       jsIncludes (jsToLower r.query) (jsTrim (jsToLower term)) ||
       jsIncludes (jsToLower r.action) (jsTrim (jsToLower term)) ||
       jsIncludes (jsToLower (getActionName r.action)) (jsTrim (jsToLower term))) = true) := by
  constructor
  · intro rules p r hr hd hterm
    rw [loadPage_rows] at hr
    rcases List.mem_map.mp hr with ⟨r1, hr1, rfl⟩
    rcases List.mem_map.mp hr1 with ⟨r2, hr2, rfl⟩
    rcases List.mem_map.mp hr2 with ⟨rd, hrd, rfl⟩
    have hbeq : (jsTrim (jsToLower p.searchInput) == "") = false := by
      simpa using hterm
    have hd2 : ruleMatches p (snapshotRow (renderRow rd)) = true := hd
    simp only [ruleMatches, hbeq, Bool.false_or, Bool.and_eq_true, Bool.or_eq_true,
      Bool.not_eq_true'] at hd2
    refine ⟨?_, rd, hrd, rfl, rfl, rfl⟩
    rcases hd2 with ⟨⟨(⟨_, h⟩ | ⟨_, h⟩) | ⟨_, h⟩, _⟩, _⟩ <;> simp [setDisplay, h]
  · intro term rules r hr hterm
    simp only [sidebarFilterRules] at hr
    rw [if_neg hterm] at hr
    exact (List.mem_filter.mp hr).2

theorem c4_search_fields_witness :
    ((jsIncludes rW4.cName (jsTrim (jsToLower pSearch.searchInput)) ||
      jsIncludes rW4.cDescription (jsTrim (jsToLower pSearch.searchInput)) ||
      jsIncludes rW4.cQuery (jsTrim (jsToLower pSearch.searchInput))) = true ∧
     ∃ rd ∈ [rdA], rW4.cName = jsToLower rd.name ∧
       rW4.cDescription = jsToLower rd.description ∧ rW4.cQuery = jsToLower rd.query) ∧
    (jsIncludes (jsToLower sbR.name) (jsTrim (jsToLower "sms")) ||
     jsIncludes (jsToLower sbR.description) (jsTrim (jsToLower "sms")) ||
     jsIncludes (jsToLower sbR.query) (jsTrim (jsToLower "sms")) ||
     jsIncludes (jsToLower sbR.action) (jsTrim (jsToLower "sms")) ||
     jsIncludes (jsToLower (getActionName sbR.action)) (jsTrim (jsToLower "sms"))) = true :=
  ⟨c4_search_fields_amended.1 [rdA] pSearch rW4 (by decide) (by decide) (by decide),
   c4_search_fields_amended.2 "sms" [sbR] sbR (by decide) (by decide)⟩

/-- C10: the filter classifies a rule as active exactly when its stored flag
is the string True; the template renders a missing is_active as True and the
snapshot defaults an empty attribute to True, hence active; a successful
toggle writes the JS boolean string (true or false) into data-active, which
the classifier counts as inactive. -/
theorem c10_active_flag_classification :
    (∀ s : String, ruleIsActive s = true ↔ s = "True") ∧
    (∀ rd : RuleData, rd.isActive = none → (renderRow rd).dataActive = "True") ∧
    (∀ r : Row, r.dataActive = "" → (snapshotRow r).cActive = "True") ∧
    (∀ (r : Row) (b : Bool),
      (toggleRuleStatusRow (clickRow r) (ToggleResponse.ok b)).dataActive = jsBoolString b ∧
      ruleIsActive (jsBoolString b) = false) := by
  refine ⟨?_, ?_, ?_, ?_⟩
  · intro s
    simp [ruleIsActive]
  · intro rd h
    simp [renderRow, h, pyStr]
  · intro r h
    simp [snapshotRow, h]
  · intro r b
    cases b <;> simp [toggleRuleStatusRow, clickRow, jsBoolString, ruleIsActive]

/-- C8: sortRules by name yields rows whose names are non-decreasing under
the comparison modelling localeCompare, the sort is stable (rows with equal
names keep their prior relative order, here stated as equality of the
per-name subsequences), and sorting twice by name yields the identical
order as sorting once. -/
theorem c8_sort_name_properties (pg : PageState) :
    ((sortRules "name" pg).rows).Pairwise
      (fun a b => jsStrCmp a.dataName b.dataName ≤ 0) ∧
    (∀ k : String,
      (sortRules "name" pg).rows.filter (fun r => r.dataName == k) =
        (pg.rows.filter (fun r => r.dataName == k)).map snapshotRow) ∧
    (sortRules "name" (sortRules "name" pg)).rows = (sortRules "name" pg).rows := by
  haveI htot : IsTotal Row (jsLe (rowCmp "name")) := ⟨by
    intro a b
    simp only [jsLe, rowCmp_name]
    exact jsStrCmp_le_total a.dataName b.dataName⟩
  haveI htr : IsTrans Row (jsLe (rowCmp "name")) := ⟨by
    intro a b c hab hbc
    simp only [jsLe, rowCmp_name] at hab hbc ⊢
    exact jsStrCmp_le_trans hab hbc⟩
  have hsorted : (List.insertionSort (jsLe (rowCmp "name")) pg.rows).Pairwise
      (jsLe (rowCmp "name")) :=
    List.sorted_insertionSort (jsLe (rowCmp "name")) pg.rows
  have hsnap : ∀ a b : Row, jsLe (rowCmp "name") a b →
      jsLe (rowCmp "name") (snapshotRow a) (snapshotRow b) := by
    intro a b hab
    simp only [jsLe, rowCmp_name] at hab ⊢
    exact hab
  refine ⟨?_, ?_, ?_⟩
  · show ((List.insertionSort (jsLe (rowCmp "name")) pg.rows).map snapshotRow).Pairwise
      (fun a b => jsStrCmp a.dataName b.dataName ≤ 0)
    exact List.Pairwise.map snapshotRow
      (fun a b hab => by simpa only [jsLe, rowCmp_name] using hab) hsorted
  · intro k
    show ((List.insertionSort (jsLe (rowCmp "name")) pg.rows).map snapshotRow).filter
        (fun r => r.dataName == k) = _
    rw [List.filter_map]
    have hps : ((fun r : Row => r.dataName == k) ∘ snapshotRow) =
        (fun r : Row => r.dataName == k) := funext fun r => rfl
    rw [hps]
    rw [filter_insertionSort_ties (fun r : Row => r.dataName == k) pg.rows]
    intro x _ y _ hpx hpy
    have hx : x.dataName = k := by simpa using hpx
    have hy : y.dataName = k := by simpa using hpy
    simp only [jsLe, rowCmp_name, hx, hy]
    rw [jsStrCmp_self]
  · have hsorted2 : ((sortRules "name" pg).rows).Pairwise (jsLe (rowCmp "name")) := by
      show ((List.insertionSort (jsLe (rowCmp "name")) pg.rows).map snapshotRow).Pairwise
        (jsLe (rowCmp "name"))
      exact List.Pairwise.map snapshotRow hsnap hsorted
    show ((List.insertionSort (jsLe (rowCmp "name")) (sortRules "name" pg).rows).map
        snapshotRow) = (sortRules "name" pg).rows
    rw [List.Sorted.insertionSort_eq hsorted2]
    show ((List.insertionSort (jsLe (rowCmp "name")) pg.rows).map snapshotRow).map
        snapshotRow = _
    exact snap_map_idem (List.insertionSort (jsLe (rowCmp "name")) pg.rows)

/-- C9 counterexample: sorting by modified a two-row page whose first row has
the unparseable date None leaves that row first (the NaN comparator result
counts as a tie and the stable sort keeps prior order), instead of placing it
after the row with a valid date as the claim requires. -/
theorem c9_sort_modified_counterexample :
    ((sortRules "modified" pgC9).rows.map (fun r => r.dataModified)) =
      ["None", "2024-01-02 03:04:05"] ∧
    jsDateValue "None" = none ∧
    (jsDateValue "2024-01-02 03:04:05").isSome = true := by
  decide

/-- C9 amended: when every row has a parseable modified date, sortRules by
modified orders the rows newest first; a row whose date does not parse
compares equal to every row, so the stable sort keeps it in its prior
relative position — in particular a leading unparseable-date row stays
first rather than sorting as the oldest. -/
theorem c9_sort_modified_amended :
    (∀ pg : PageState, (∀ r ∈ pg.rows, (jsDateValue r.dataModified).isSome = true) →
      ((sortRules "modified" pg).rows).Pairwise
        (fun a b => (jsDateValue b.dataModified).getD 0 ≤
          (jsDateValue a.dataModified).getD 0)) ∧
    (∀ (pg : PageState) (a : Row) (rest : List Row),
      pg.rows = a :: rest → jsDateValue a.dataModified = none →
      ((sortRules "modified" pg).rows).head? = some (snapshotRow a)) := by
  constructor
  · intro pg hv
    have hcongr : List.insertionSort (jsLe (rowCmp "modified")) pg.rows =
        List.insertionSort modifiedKeyLe pg.rows := by
      apply insertionSort_congr
      intro x hx y hy
      rcases Option.isSome_iff_exists.mp (hv x hx) with ⟨vx, hvx⟩
      rcases Option.isSome_iff_exists.mp (hv y hy) with ⟨vy, hvy⟩
      simp [jsLe, rowCmp_modified, jsDateCmp, modifiedKeyLe, hvx, hvy, sub_nonpos]
    haveI : IsTotal Row modifiedKeyLe := ⟨fun a b => le_total _ _⟩
    haveI : IsTrans Row modifiedKeyLe := ⟨fun a b c hab hbc => le_trans hbc hab⟩
    have hsorted := List.sorted_insertionSort modifiedKeyLe pg.rows
    rw [← hcongr] at hsorted
    show ((List.insertionSort (jsLe (rowCmp "modified")) pg.rows).map snapshotRow).Pairwise _
    exact List.Pairwise.map snapshotRow (fun a b hab => hab) hsorted
  · intro pg a rest hrows hnone
    have hle : ∀ x : Row, jsLe (rowCmp "modified") a x := by
      intro x
      simp [jsLe, rowCmp_modified, jsDateCmp, hnone]
    show ((List.insertionSort (jsLe (rowCmp "modified")) pg.rows).map snapshotRow).head? = _
    rw [hrows, List.insertionSort]
    cases hsr : List.insertionSort (jsLe (rowCmp "modified")) rest with
    | nil => rfl
    | cons b t =>
      rw [List.orderedInsert, if_pos (hle b)]
      rfl

theorem c9_sort_modified_witness :
    ((sortRules "modified" pgV9).rows).Pairwise
      (fun a b => (jsDateValue b.dataModified).getD 0 ≤
        (jsDateValue a.dataModified).getD 0) ∧
    ((sortRules "modified" pgC9).rows).head? = some (snapshotRow rowN) :=
  ⟨c9_sort_modified_amended.1 pgV9 (by decide),
   c9_sort_modified_amended.2 pgC9 rowN [rowV] rfl (by decide)⟩

theorem c10_active_flag_witness :
    (renderRow { rdA with isActive := none }).dataActive = "True" ∧
    (snapshotRow { renderRow rdA with dataActive := "" }).cActive = "True" :=
  ⟨c10_active_flag_classification.2.1 { rdA with isActive := none } rfl,
   c10_active_flag_classification.2.2.1 { renderRow rdA with dataActive := "" } rfl⟩

end RulesAdmin
